import Mathlib

/-!
Verification of the change-detection and driver-attribution core of the
kpi-change-analyzer repository (src/analysis/drivers.py and
src/analysis/trend.py), as a shallow embedding in Lean 4.

Modelling conventions:

* A pandas DataFrame is a `DF`: a list of column names and a list of rows,
  each row a list of cell values aligned with the column list.
* A cell value (`Val`) is a number, a string, or null (NaN).  Real/float
  arithmetic of the source is modelled by exact rational arithmetic.
* Because the ambient library marks the field operations on `Rat`
  irreducible (blocking kernel evaluation), the embedding uses its own
  kernel-reducible rational operations `qadd`, `qsub`, `qmul`, `qdiv`,
  `qabs`, `qsum` built on `mkRat`; bridge lemmas below prove each equal to
  the corresponding Mathlib field operation, so the algebraic content is
  unchanged.
* In-place mutation of the caller's DataFrames (the Python code assigns
  new columns to its arguments) is modelled by explicit state passing:
  `calculate_drivers_effects` returns the final states of both input
  frames next to its result.
* An uncaught pandas exception (e.g. a KeyError from `pd.merge` on a
  missing key) is modelled by `Except`: `.error .keyError` is a raised
  exception, `.ok` a normal return.
* The model assumes well-formed inputs as produced by the repository's
  ingestion layer: homogeneous dimension columns and a numeric metric
  column (the spec's §6 external interface guarantees a validated table).
-/

/-- A cell value of a table: a number, a string, or null (NaN). -/
inductive Val where
  | num (q : ℚ)
  | str (s : String)
  | null
deriving DecidableEq

/-- True when the value is null (a NaN cell). -/
def Val.isNull : Val → Bool
  | .null => true
  | _ => false

/-- Numeric content of a value; non-numeric cells read as 0 (the source
never reads a non-numeric cell as a float on the modelled paths). -/
def Val.toQ : Val → ℚ
  | .num q => q
  | _ => 0

/-- A DataFrame: named columns and rows of cells (row i, column j at
position j of row i). -/
structure DF where
  cols : List String
  rows : List (List Val)
deriving DecidableEq

/-- Kernel-reducible rational addition (value-equal to `+` on ℚ). -/
def qadd (a b : ℚ) : ℚ := mkRat (a.num * (b.den : ℤ) + b.num * (a.den : ℤ)) (a.den * b.den)

/-- Kernel-reducible rational subtraction (value-equal to `-` on ℚ). -/
def qsub (a b : ℚ) : ℚ := mkRat (a.num * (b.den : ℤ) - b.num * (a.den : ℤ)) (a.den * b.den)

/-- Kernel-reducible rational multiplication (value-equal to `*` on ℚ). -/
def qmul (a b : ℚ) : ℚ := mkRat (a.num * b.num) (a.den * b.den)

/-- Kernel-reducible rational division (value-equal to `/` on ℚ, with the
library's convention `x / 0 = 0`; every division in the modelled code is
guarded by a nonzero denominator). -/
def qdiv (a b : ℚ) : ℚ :=
  if (a.den : ℤ) * b.num < 0 then mkRat (-(a.num * (b.den : ℤ))) ((a.den : ℤ) * b.num).natAbs
  else mkRat (a.num * (b.den : ℤ)) ((a.den : ℤ) * b.num).toNat

/-- Kernel-reducible absolute value (value-equal to `|·|` on ℚ). -/
def qabs (a : ℚ) : ℚ := if a < 0 then -a else a

/-- Kernel-reducible list sum with `qadd` (value-equal to `List.sum`). -/
def qsum (l : List ℚ) : ℚ := l.foldr qadd 0

/-- Stable insertion of an element into a list: placed before the first
element y with le x y. -/
def insertLe {α : Type} (le : α → α → Bool) (x : α) : List α → List α
  | [] => [x]
  | y :: t => if le x y then x :: y :: t else y :: insertLe le x t

/-- Stable insertion sort (models the deterministic sorts of numpy and
pandas used by the source; no modelled claim depends on tie order). -/
def isort {α : Type} (le : α → α → Bool) : List α → List α
  | [] => []
  | x :: t => insertLe le x (isort le t)

/-- Byte-wise (code-point) comparison of character lists, modelling the
Python string order used by pandas when sorting group keys. -/
def charsLe : List Char → List Char → Bool
  | [], _ => true
  | _ :: _, [] => false
  | c :: cs, d :: ds =>
    if c.val < d.val then true
    else if d.val < c.val then false
    else charsLe cs ds

/-- String order by code points (Python string comparison). -/
def strLe (a b : String) : Bool := charsLe a.data b.data

/-- Total order on cell values used for sorting group keys and rows:
null first, then numbers by value, then strings by code points.  The
modelled tables hold homogeneous columns, so the cross-constructor cases
are never exercised. -/
def Val.le : Val → Val → Bool
  | .null, _ => true
  | .num _, .null => false
  | .num a, .num b => decide (a ≤ b)
  | .num _, .str _ => true
  | .str _, .num _ => false
  | .str _, .null => false
  | .str a, .str b => strLe a b

/-- Values of one column of a frame, top to bottom; a missing column reads
as the empty list (the source only reads columns it has checked for, or
whose presence the caller's contract guarantees). -/
def DF.col (df : DF) (c : String) : List Val :=
  match df.cols.findIdx? (fun x => x == c) with
  | some i => df.rows.map (fun r => r.getD i Val.null)
  | none => []

/-- Column assignment `df[c] = vs`: replaces the column when it exists,
appends it otherwise (pandas in-place column assignment). -/
def DF.setCol (df : DF) (c : String) (vs : List Val) : DF :=
  match df.cols.findIdx? (fun x => x == c) with
  | some i => ⟨df.cols, (df.rows.zip vs).map (fun p => p.1.set i p.2)⟩
  | none => ⟨df.cols ++ [c], (df.rows.zip vs).map (fun p => p.1 ++ [p.2])⟩

/-- Pandas `DataFrame.empty`: true when either axis has length 0. -/
def DF.isEmpty (df : DF) : Bool := df.rows.isEmpty || df.cols.isEmpty

/-- Number of distinct non-null values, modelling
`Series.nunique(dropna=True)`. -/
def nuniqDropNa (vs : List Val) : ℕ := ((vs.filter (fun v => !v.isNull)).dedup).length

/-- Errors the modelled code can raise: an uncaught pandas KeyError. -/
inductive PyError where
  | keyError
deriving DecidableEq

/-- Decidable equality on Except, for evaluating concrete runs of the
modelled code. -/
instance exceptDecEq {ε α : Type} [DecidableEq ε] [DecidableEq α] :
    DecidableEq (Except ε α) := fun x y =>
  match x, y with
  | .error a, .error b =>
    if h : a = b then isTrue (by rw [h]) else isFalse (by intro hh; injection hh; exact h (by assumption))
  | .error _, .ok _ => isFalse (by intro hh; exact Except.noConfusion hh)
  | .ok _, .error _ => isFalse (by intro hh; exact Except.noConfusion hh)
  | .ok a, .ok b =>
    if h : a = b then isTrue (by rw [h]) else isFalse (by intro hh; injection hh; exact h (by assumption))

/-- The name of the binned-column suffix used by the source
(f-string dim plus this suffix). -/
def binnedSuffix : String := "_binned"

/-- Infix of the generated bucket labels. -/
def binInfix : String := "_bin_"

/-- Source: src/analysis/drivers.py lines 5-9.  A series is treated as
continuous when its dtype is numeric and it has more than max_categories
distinct non-null values.  A column whose cells are all numeric or null
has a numeric dtype; any string cell makes the dtype object. -/
def is_continuous_series (s : List Val) (max_categories : ℕ) : Bool :=
  (s.all (fun v => match v with
    | .num _ => true
    | .null => true
    | .str _ => false)) && decide (nuniqDropNa s > max_categories)

/-- Sorted list of rationals, ascending. -/
def sortQ (l : List ℚ) : List ℚ := isort (fun a b => decide (a ≤ b)) l

/-- Linear-interpolation quantile of a sorted list at fraction q, as
numpy/pandas compute it: position h = q*(n-1), result
v_floor(h) + (h - floor h) * (v_floor(h)+1 - v_floor(h)). -/
def quantileOne (sorted : List ℚ) (q : ℚ) : ℚ :=
  if sorted.length = 0 then 0
  else
    let n := sorted.length
    let h := qmul q (qsub (mkRat (n : ℤ) 1) 1)
    let i := (Rat.floor h).toNat
    let lo := sorted.getD i 0
    let hi := sorted.getD (min (i + 1) (n - 1)) 0
    qadd lo (qmul (qsub h (mkRat (Rat.floor h) 1)) (qsub hi lo))

/-- Source: drivers.py lines 34-35.  Quantiles of the non-null values at
the nQ evenly spaced fractions 0, 1/(nQ-1), ..., 1
(np.linspace(0, 1, n_bins + 1) with nQ = n_bins + 1 points). -/
def quantile_points (vals : List ℚ) (nQ : ℕ) : List ℚ :=
  let s := sortQ vals
  (List.range nQ).map (fun i => quantileOne s (qdiv (mkRat (i : ℤ) 1) (mkRat ((nQ - 1 : ℕ) : ℤ) 1)))

/-- Source: drivers.py line 37, np.unique: sorted distinct values. -/
def uniqueSorted (l : List ℚ) : List ℚ := sortQ l.dedup

/-- Index of the bucket of x for pd.cut with right-closed intervals and
include_lowest=True: interval 0 is [e0, e1], interval i>0 is (ei, ei+1]. -/
def cut_index (edges : List ℚ) (x : ℚ) : Option ℕ :=
  (List.range (edges.length - 1)).find? (fun i =>
    if i = 0 then decide (edges.getD 0 0 ≤ x) && decide (x ≤ edges.getD 1 0)
    else decide (edges.getD i 0 < x) && decide (x ≤ edges.getD (i + 1) 0))

/-- Source: drivers.py lines 45-50, pd.cut: each numeric value is mapped
to the label of its bucket; values outside every bucket (impossible here,
as the edges span the combined data) and non-numeric cells become null. -/
def cut (vals : List Val) (edges : List ℚ) (labels : List String) : List Val :=
  vals.map (fun v => match v with
    | .num x =>
      match cut_index edges x with
      | some i => .str (labels.getD i "")
      | none => .null
    | _ => .null)

/-- Result of the binner: the two frames after the in-place column
assignments, and the bucket-edge list passed to pd.cut for each period
(none when the period's column was not cut). -/
structure BinResult where
  current : DF
  previous : DF
  edges_used_curr : Option (List ℚ)
  edges_used_prev : Option (List ℚ)
deriving DecidableEq

/-- Source: src/analysis/drivers.py lines 12-58, bin_continuous_dimension.
Quantile-bins a continuous dimension with one edge set computed on the
combined data.  The source mutates both input frames in place (adding the
column dim + "_binned"); the model returns the mutated frames.  The
try/except fallback corresponds to the non-numeric-dtype branch here: the
only failure pandas can raise inside the try block on the modelled inputs
is quantile on a non-numeric column. -/
def bin_continuous_dimension (current previous : DF) (dim : String)
    (n_bins min_unique : ℕ) : BinResult :=
  let combined := current.col dim ++ previous.col dim
  let unique_vals := nuniqDropNa combined
  if unique_vals < min_unique then
    ⟨current.setCol (dim ++ binnedSuffix) (current.col dim),
     previous.setCol (dim ++ binnedSuffix) (previous.col dim), none, none⟩
  else if !(combined.all (fun v => match v with
    | .num _ => true
    | .null => true
    | .str _ => false)) then
    ⟨current.setCol (dim ++ binnedSuffix) (current.col dim),
     previous.setCol (dim ++ binnedSuffix) (previous.col dim), none, none⟩
  else
    let vals := (combined.filter (fun v => !v.isNull)).map Val.toQ
    let bin_edges := uniqueSorted (quantile_points vals (n_bins + 1))
    if bin_edges.length ≤ 1 then
      ⟨current.setCol (dim ++ binnedSuffix) (current.col dim),
       previous.setCol (dim ++ binnedSuffix) (previous.col dim), none, none⟩
    else
      let labels := (List.range (bin_edges.length - 1)).map
        (fun i => dim ++ binInfix ++ toString i)
      ⟨current.setCol (dim ++ binnedSuffix) (cut (current.col dim) bin_edges labels),
       previous.setCol (dim ++ binnedSuffix) (cut (previous.col dim) bin_edges labels),
       some bin_edges, some bin_edges⟩

/-- A per-period aggregate, the output of groupby(key)[metric].agg(...):
the key column name and, per distinct key (in pandas sorted-key order),
the pair (sum, mean) of the metric inside the group. -/
structure Agg where
  keyName : String
  rows : List (Val × ℚ × ℚ)
deriving DecidableEq

/-- Source: drivers.py lines 151-161.  Groupby with sort=True: distinct
non-null keys sorted ascending; volume = sum of the metric in the group,
mean = its average. -/
def groupby_agg (df : DF) (keyCol valCol : String) : Agg :=
  let pairs := (df.col keyCol).zip ((df.col valCol).map Val.toQ)
  let keys := isort Val.le ((pairs.map (fun p => p.1)).filter (fun v => !v.isNull)).dedup
  ⟨keyCol, keys.map (fun k =>
    let g := (pairs.filter (fun p => decide (p.1 = k))).map (fun p => p.2)
    (k, qsum g, qdiv (qsum g) (mkRat (g.length : ℤ) 1)))⟩

/-- One row of the merged table: a category key with its volume and mean
in each period (zero-filled when the category is absent from a period,
drivers.py lines 165-166). -/
structure MRow where
  key : Val
  volume_curr : ℚ
  mean_curr : ℚ
  volume_prev : ℚ
  mean_prev : ℚ
deriving DecidableEq

/-- Source: drivers.py line 164, pd.merge(curr_agg, prev_agg, on=dim,
how="outer") followed by the fillna of lines 165-166.  pd.merge raises a
KeyError when the join column is missing from either frame: the
aggregates are keyed by their groupby column, so the merge succeeds only
when onCol is that key column on both sides.  Row order: left keys first
(left order), then right-only keys (right order). -/
def merge_outer (onCol : String) (l r : Agg) : Except PyError (List MRow) :=
  if onCol = l.keyName ∧ onCol = r.keyName then
    Except.ok
      ((l.rows.map (fun p =>
        match r.rows.find? (fun q => decide (q.1 = p.1)) with
        | some q => ⟨p.1, p.2.1, p.2.2, q.2.1, q.2.2⟩
        | none => ⟨p.1, p.2.1, p.2.2, 0, 0⟩))
      ++ ((r.rows.filter (fun q => l.rows.all (fun p => !decide (p.1 = q.1)))).map
        (fun q => ⟨q.1, 0, 0, q.2.1, q.2.2⟩)))
  else Except.error PyError.keyError

/-- Source: drivers.py line 169, contrib_curr = volume_curr * mean_curr. -/
def contrib_curr (r : MRow) : ℚ := qmul r.volume_curr r.mean_curr

/-- Source: drivers.py line 170, contrib_prev = volume_prev * mean_prev. -/
def contrib_prev (r : MRow) : ℚ := qmul r.volume_prev r.mean_prev

/-- Source: drivers.py line 171, contrib_delta = contrib_curr - contrib_prev. -/
def contrib_delta (r : MRow) : ℚ := qsub (contrib_curr r) (contrib_prev r)

/-- Source: drivers.py line 175, volume_share_curr = volume_curr /
(total_curr_volume + eps).  total_curr_volume is len(current), a row
count (line 117). -/
def volume_share_curr (tcv eps : ℚ) (r : MRow) : ℚ := qdiv r.volume_curr (qadd tcv eps)

/-- Source: drivers.py line 176, volume_share_prev. -/
def volume_share_prev (tpv eps : ℚ) (r : MRow) : ℚ := qdiv r.volume_prev (qadd tpv eps)

/-- Source: drivers.py lines 178-181.  Keep a category when its volume
share reaches min_volume_share in at least one period. -/
def volume_filter (tcv tpv eps mvs : ℚ) (ms : List MRow) : List MRow :=
  ms.filter (fun r =>
    decide (volume_share_curr tcv eps r ≥ mvs) || decide (volume_share_prev tpv eps r ≥ mvs))

/-- Source: drivers.py lines 194-196.  The normalization denominator:
total_contrib_delta when its absolute value exceeds eps, otherwise
the absolute total contributions plus eps. -/
def norm_denom (tdelta tcc tpc eps : ℚ) : ℚ :=
  if qabs tdelta > eps then tdelta else qadd (qadd (qabs tcc) (qabs tpc)) eps

/-- Source: drivers.py line 198, contrib_share_of_change =
contrib_delta / denom. -/
def contrib_share_of_change (denom : ℚ) (r : MRow) : ℚ := qdiv (contrib_delta r) denom

/-- Source: drivers.py lines 201-203.  Drop categories whose absolute
share of the change is below min_abs_contrib_share. -/
def contrib_filter (denom macs : ℚ) (ms : List MRow) : List MRow :=
  ms.filter (fun r => decide (qabs (contrib_share_of_change denom r) ≥ macs))

/-- Source: drivers.py lines 220-230, score_to_label. -/
def score_to_label (score : ℚ) : String :=
  if score < mkRat 2 100 then "minor"
  else if score < mkRat 1 10 then "moderate"
  else "strong"

/-- One output record (a row of merged_sorted.to_dict(orient="records")):
all columns the pipeline has assigned to the merged frame. -/
structure DriverRec where
  key : Val
  volume_curr : ℚ
  mean_curr : ℚ
  volume_prev : ℚ
  mean_prev : ℚ
  contrib_curr : ℚ
  contrib_prev : ℚ
  contrib_delta : ℚ
  volume_share_curr : ℚ
  volume_share_prev : ℚ
  contrib_share_of_change : ℚ
  effect_score : ℚ
  change_label : String
  direction : String
deriving DecidableEq

/-- Assembles the output record of one merged row: effect_score is the
absolute contribution share (line 217), the label its bucket (line 232),
direction by the sign of contrib_delta (lines 235-237). -/
def build_record (tcv tpv eps denom : ℚ) (r : MRow) : DriverRec :=
  ⟨r.key, r.volume_curr, r.mean_curr, r.volume_prev, r.mean_prev,
   contrib_curr r, contrib_prev r, contrib_delta r,
   volume_share_curr tcv eps r, volume_share_prev tpv eps r,
   contrib_share_of_change denom r,
   qabs (contrib_share_of_change denom r),
   score_to_label (qabs (contrib_share_of_change denom r)),
   if contrib_delta r ≥ 0 then "positive" else "negative"⟩

/-- One entry of the returned list (drivers.py lines 184-189, 205-211,
254-261).  The source returns plain dicts; the empty-filter branches omit
the num_drivers key, so that field is an Option: none models an absent
key. -/
structure DriverResult where
  dimension : String
  drivers : List DriverRec
  top_positive : List DriverRec
  top_negative : List DriverRec
  num_drivers : Option ℕ
deriving DecidableEq

/-- The dict appended when every category was filtered out (drivers.py
lines 184-189 and 205-211): dimension and three empty lists, no
num_drivers key. -/
def emptyDriverResult (dim : String) : DriverResult := ⟨dim, [], [], [], none⟩

/-- The merged per-category table of one dimension before any filter:
groupby aggregates of both periods outer-merged on dim (lines 151-166).
dimG is the column the aggregates are keyed by (dim itself, or
dim + "_binned" after binning). -/
def merged_pre_filter (cur prev : DF) (dim dimG metric : String) :
    Except PyError (List MRow) :=
  merge_outer dim (groupby_agg cur dimG metric) (groupby_agg prev dimG metric)

/-- Source: drivers.py lines 151-261, the per-dimension pipeline after
the skip checks: aggregate, merge (which may raise), volume filter,
normalize, contribution filter, score, sort by effect descending, pick
the top three of each sign (strictly positive and strictly negative
contrib_delta, lines 245-250). -/
def process_dim (cur prev : DF) (dim dimG metric : String)
    (tcv tpv tcc tpc tdelta mvs macs eps : ℚ) : Except PyError DriverResult :=
  match merged_pre_filter cur prev dim dimG metric with
  | Except.error e => Except.error e
  | Except.ok merged =>
    let kept := volume_filter tcv tpv eps mvs merged
    if kept.isEmpty then Except.ok (emptyDriverResult dim)
    else
      let denom := norm_denom tdelta tcc tpc eps
      let kept2 := contrib_filter denom macs kept
      if kept2.isEmpty then Except.ok (emptyDriverResult dim)
      else
        let records := isort (fun a b => decide (b.effect_score ≤ a.effect_score))
          (kept2.map (build_record tcv tpv eps denom))
        Except.ok
          ⟨dim, records,
           (records.filter (fun r => decide (r.contrib_delta > 0))).take 3,
           (records.filter (fun r => decide (r.contrib_delta < 0))).take 3,
           some records.length⟩

/-- Source: drivers.py lines 126-137.  A dimension is skipped when it is
missing from either frame, when it has at most one distinct non-null
value in each period separately (line 130), or when the combined series
has at most one distinct non-null value (line 136). -/
def dim_skipped (cur prev : DF) (dim : String) : Bool :=
  !(decide (dim ∈ cur.cols)) || !(decide (dim ∈ prev.cols))
  || (decide (nuniqDropNa (cur.col dim) ≤ 1) && decide (nuniqDropNa (prev.col dim) ≤ 1))
  || decide (nuniqDropNa (cur.col dim ++ prev.col dim) ≤ 1)

/-- Source: drivers.py lines 124-261, the loop over dimensions.  State
passing models the in-place mutation of the input frames by the binner;
an exception aborts the loop, and the frames mutated so far keep their
new columns.  Results are appended in loop order. -/
def drivers_loop (metric : String) (tcv tpv tcc tpc tdelta mvs macs eps : ℚ) :
    List String → DF → DF → (Except PyError (List DriverResult)) × DF × DF
  | [], cur, prev => (Except.ok [], cur, prev)
  | dim :: rest, cur, prev =>
    if dim_skipped cur prev dim then drivers_loop metric tcv tpv tcc tpc tdelta mvs macs eps rest cur prev
    else
      let series_full := cur.col dim ++ prev.col dim
      if is_continuous_series series_full 20 then
        let b := bin_continuous_dimension cur prev dim 10 10
        match process_dim b.current b.previous dim (dim ++ binnedSuffix) metric
          tcv tpv tcc tpc tdelta mvs macs eps with
        | Except.error e => (Except.error e, b.current, b.previous)
        | Except.ok r =>
          let t := drivers_loop metric tcv tpv tcc tpc tdelta mvs macs eps rest b.current b.previous
          match t.1 with
          | Except.error e => (Except.error e, t.2.1, t.2.2)
          | Except.ok rs => (Except.ok (r :: rs), t.2.1, t.2.2)
      else
        match process_dim cur prev dim dim metric tcv tpv tcc tpc tdelta mvs macs eps with
        | Except.error e => (Except.error e, cur, prev)
        | Except.ok r =>
          let t := drivers_loop metric tcv tpv tcc tpc tdelta mvs macs eps rest cur prev
          match t.1 with
          | Except.error e => (Except.error e, t.2.1, t.2.2)
          | Except.ok rs => (Except.ok (r :: rs), t.2.1, t.2.2)

/-- Source: drivers.py lines 120-121, the total contribution of a period:
the metric column's sum when the column exists, else 0.0. -/
def total_contrib (df : DF) (metric : String) : ℚ :=
  if metric ∈ df.cols then qsum ((df.col metric).map Val.toQ) else 0

/-- Source: src/analysis/drivers.py lines 61-263,
calculate_drivers_effects with an explicit dimension list.  Returns the
result (or the uncaught exception) together with the final states of the
two input frames, which the source mutates in place via the binner.
total_curr_volume and total_prev_volume are the row counts len(current)
and len(previous) (lines 117-118). -/
def calculate_drivers_effects (current previous : DF) (metric_col : String)
    (dimensions : List String) (min_volume_share min_abs_contrib_share eps : ℚ) :
    (Except PyError (List DriverResult)) × DF × DF :=
  let tcv : ℚ := mkRat (current.rows.length : ℤ) 1
  let tpv : ℚ := mkRat (previous.rows.length : ℤ) 1
  let tcc := total_contrib current metric_col
  let tpc := total_contrib previous metric_col
  drivers_loop metric_col tcv tpv tcc tpc (qsub tcc tpc)
    min_volume_share min_abs_contrib_share eps dimensions current previous

/-- Source: drivers.py lines 104-112.  When dimensions is None the source
iterates over the Python set intersection of the two column lists and
keeps the non-meta columns.  A set's iteration order is not specified by
the source (CPython orders it by string hashes, which are randomized per
process), so the model takes the enumeration of the common-column set as
an explicit argument: any permutation of the set is a possible
enumeration. -/
def infer_dimensions (metric_col : String) (commonEnum : List String) : List String :=
  commonEnum.filter (fun c => !(decide (c = "date") || decide (c = metric_col) || decide (c = "metric_name")))

/-- The common-column set of the two frames as an (unordered) deduplicated
list: what set(current.columns).intersection(previous.columns) holds. -/
def common_columns (cur prev : DF) : List String :=
  (cur.cols.filter (fun c => decide (c ∈ prev.cols))).dedup

/-- calculate_drivers_effects with dimensions=None: the dimension list is
inferred from the given enumeration of the common-column set. -/
def calculate_drivers_effects_auto (current previous : DF) (metric_col : String)
    (commonEnum : List String) (min_volume_share min_abs_contrib_share eps : ℚ) :
    (Except PyError (List DriverResult)) × DF × DF :=
  calculate_drivers_effects current previous metric_col
    (infer_dimensions metric_col commonEnum) min_volume_share min_abs_contrib_share eps

/-- Error raised by detect_change_context: the spec's InvalidInput
condition (the source raises ValueError("One of the comparison periods
has no data")). -/
inductive TrendError where
  | invalidInput
deriving DecidableEq

/-- Sorts the rows of a frame by one column (pandas sort_values; the
model's sort is stable, no modelled claim depends on tie order).  A
missing sort column leaves the frame unchanged (never reached on the
callers' contract inputs). -/
def DF.sortByCol (df : DF) (c : String) : DF :=
  match df.cols.findIdx? (fun x => x == c) with
  | some i => ⟨df.cols, isort (fun r1 r2 => Val.le (r1.getD i Val.null) (r2.getD i Val.null)) df.rows⟩
  | none => df

/-- Mean of a list of rationals (0 on the empty list, which the source
reaches only behind explicit length guards or as numpy NaN whose
downstream comparisons are all false, as they are for 0). -/
def sampleMean (xs : List ℚ) : ℚ := qdiv (qsum xs) (mkRat (xs.length : ℤ) 1)

/-- Sample variance with ddof=1 (the pandas default for std), the square
of the standard deviation: sum of squared deviations over n - 1. -/
def sampleVar (xs : List ℚ) : ℚ :=
  qdiv (qsum (xs.map (fun x => qmul (qsub x (sampleMean xs)) (qsub x (sampleMean xs)))))
    (qsub (mkRat (xs.length : ℤ) 1) 1)

/-- Source: trend.py lines 40-47, fit_slope.  Least-squares slope of the
series against the index 0..n-1 (np.polyfit degree 1), 0.0 when the
series has fewer than 2 points. -/
def fit_slope (ys : List ℚ) : ℚ :=
  if ys.length < 2 then 0
  else
    let n : ℚ := mkRat (ys.length : ℤ) 1
    let xs : List ℚ := (List.range ys.length).map (fun i => mkRat (i : ℤ) 1)
    let sx := qsum xs
    let sy := qsum ys
    let sxy := qsum ((xs.zip ys).map (fun p => qmul p.1 p.2))
    let sxx := qsum (xs.map (fun x => qmul x x))
    qdiv (qsub (qmul n sxy) (qmul sx sy)) (qsub (qmul n sxx) (qmul sx sx))

/-- Successive differences of a series (Series.diff().dropna()). -/
def diffsQ : List ℚ → List ℚ
  | [] => []
  | x :: t => ((x :: t).tail.zip (x :: t)).map (fun p => qsub p.1 p.2)

/-- np.sign as an integer. -/
def qsign (x : ℚ) : ℤ := if x < 0 then -1 else if 0 < x then 1 else 0

/-- Sliding windows of width w (the defined rows of Series.rolling(w)
after dropna): windows i .. i+w-1 for i = 0 .. n-w. -/
def windows (xs : List ℚ) (w : ℕ) : List (List ℚ) :=
  (List.range (xs.length + 1 - w)).map (fun i => (xs.drop i).take w)

/-- Python round(x, d): round half to even at d decimal digits (the model
of float banker's rounding on exact rationals). -/
def pyRound (x : ℚ) (d : ℕ) : ℚ :=
  let m : ℚ := mkRat ((10 ^ d : ℕ) : ℤ) 1
  let y := qmul x m
  let f : ℤ := Rat.floor y
  let r := qsub y (mkRat f 1)
  let z : ℤ :=
    if r < mkRat 1 2 then f
    else if mkRat 1 2 < r then f + 1
    else if f % 2 = 0 then f else f + 1
  qdiv (mkRat z 1) m

/-- Source: trend.py lines 87-100, score_to_label of the change detector:
below 0.5 none, below 1 minor, below 2 moderate, else strong. -/
def score_to_label_trend (score : ℚ) : String :=
  if score < mkRat 5 10 then "none"
  else if score < mkRat 1 1 then "minor"
  else if score < mkRat 2 1 then "moderate"
  else "strong"

/-- The dict returned by detect_change_context (trend.py lines 131-158):
every key, with the source's rounding applied.  relative_change_pct is
None (here none) when the previous mean is zero. -/
structure ChangeContext where
  current_value : ℚ
  previous_value : ℚ
  absolute_change : ℚ
  relative_change_pct : Option ℚ
  previous_trend_slope : ℚ
  current_trend_slope : ℚ
  slope_delta : ℚ
  level_score : ℚ
  trend_score : ℚ
  level_change_label : String
  trend_change_label : String
  slope_direction_changed : Bool
  trend_consistency : ℚ
  avg_volatility : ℚ
  high_volatility : Bool
  any_change_detected : Bool
  trustworthy : Bool
deriving DecidableEq

/-- Source: src/analysis/trend.py lines 5-158, detect_change_context.
The square root of the host float library (used only inside the standard
deviations) is passed in as an uninterpreted function sqrtQ; every claim
about this function holds for all sqrtQ.  The only raise in the source is
the empty-period ValueError of lines 16-17, modelled as
Except.error .invalidInput; the remainder of the body is total. -/
def detect_change_context (sqrtQ : ℚ → ℚ) (full_df current previous : DF) :
    Except TrendError ChangeContext :=
  if current.isEmpty || previous.isEmpty then Except.error TrendError.invalidInput
  else
    let time_col := full_df.cols.headD ""
    let full_s := full_df.sortByCol time_col
    let cur_s := current.sortByCol time_col
    let prev_s := previous.sortByCol time_col
    let full_series := (full_s.col "metric_value").map Val.toQ
    let current_series := (cur_s.col "metric_value").map Val.toQ
    let previous_series := (prev_s.col "metric_value").map Val.toQ
    let current_mean := sampleMean current_series
    let previous_mean := sampleMean previous_series
    let level_delta := qsub current_mean previous_mean
    let rel_change_pct : Option ℚ :=
      if previous_mean ≠ 0 then some (qmul (qdiv level_delta previous_mean) (mkRat 100 1))
      else none
    let previous_slope := fit_slope previous_series
    let current_slope := fit_slope current_series
    let slope_delta := qsub current_slope previous_slope
    let ds := diffsQ full_series
    let overall_delta_sign := qsign level_delta
    let trend_alignment : ℚ :=
      if overall_delta_sign = 0 then mkRat 1 2
      else qdiv (mkRat ((ds.filter (fun d => decide (qsign d = overall_delta_sign))).length : ℤ) 1)
        (mkRat (ds.length : ℤ) 1)
    let n := full_series.length
    let window_size := min (max 8 (n / 10)) 20
    let avg_volatility :=
      if n ≥ window_size then
        let rolling_std := (windows full_series window_size).map (fun w => sqrtQ (sampleVar w))
        if !rolling_std.isEmpty then sampleMean rolling_std else 0
      else if n > 1 then sqrtQ (sampleVar full_series) else 0
    let eps : ℚ := mkRat 1 100000000
    let effective_volatility := if avg_volatility > 0 then avg_volatility else eps
    let level_score := qdiv (qabs level_delta) effective_volatility
    let slope_score := qdiv (qabs slope_delta) (qadd effective_volatility eps)
    let slope_direction_change := decide (qsign current_slope ≠ qsign previous_slope)
    let level_change_label := score_to_label_trend level_score
    let trend_change_label := score_to_label_trend slope_score
    let mean_abs_level := if n > 0 then sampleMean (full_series.map qabs) else 0
    let high_volatility :=
      decide (mean_abs_level > 0) && decide (qmul (mkRat 5 10) mean_abs_level < avg_volatility)
    let trustworthy :=
      (!(decide (level_change_label = "none")) || !(decide (trend_change_label = "none")))
      && decide (mkRat 6 10 < trend_alignment) && !high_volatility
    let any_change_detected :=
      (decide (level_change_label = "minor") || decide (level_change_label = "moderate")
        || decide (level_change_label = "strong"))
      || (decide (trend_change_label = "minor") || decide (trend_change_label = "moderate")
        || decide (trend_change_label = "strong"))
      || slope_direction_change
    Except.ok
      ⟨pyRound current_mean 4, pyRound previous_mean 4, pyRound level_delta 4,
       rel_change_pct.map (fun r => pyRound r 2),
       pyRound previous_slope 6, pyRound current_slope 6, pyRound slope_delta 6,
       pyRound level_score 3, pyRound slope_score 3,
       level_change_label, trend_change_label, slope_direction_change,
       pyRound trend_alignment 2, pyRound avg_volatility 4,
       high_volatility, any_change_detected, trustworthy⟩

/-- Modelled from the spec words of §4.3 step 6 for comparison with the
code's filter: "volume share (volume ÷ total period volume, with a small
epsilon denominator)" where total period volume is "the sum of the metric
column over the whole period".  The code's volume_filter instead divides
by the row count of the period (len(current), len(previous)). -/
def volume_filter_spec (total_curr_metric total_prev_metric eps mvs : ℚ)
    (ms : List MRow) : List MRow :=
  ms.filter (fun r =>
    decide (qdiv r.volume_curr (qadd total_curr_metric eps) ≥ mvs)
    || decide (qdiv r.volume_prev (qadd total_prev_metric eps) ≥ mvs))

/-- The order in which the dimension columns appear in the input tables:
the current frame's column list, restricted to columns shared with the
previous frame and not in the meta set.  This is the order claim C9
asserts for the by_dimension list. -/
def input_dim_order (cur prev : DF) (metric : String) : List String :=
  cur.cols.filter (fun c => decide (c ∈ prev.cols)
    && !(decide (c = "date") || decide (c = metric) || decide (c = "metric_name")))

/-- Claim C9 as stated: for dimensions=None, over every possible
enumeration of the Python set intersection of the column lists (the
source fixes no enumeration order), the returned DriverResults follow the
order in which the dimension columns appear in the input tables
(rendered as: the dimension sequence of the results is a sublist of the
input dimension order, the weakest order-consistency reading). -/
def c9_ordering_claim : Prop :=
  ∀ (cur prev : DF) (metric : String) (enum : List String) (mvs macs eps : ℚ)
    (rs : List DriverResult),
    enum.Perm (common_columns cur prev) →
    (calculate_drivers_effects_auto cur prev metric enum mvs macs eps).1 = Except.ok rs →
    List.Sublist (rs.map DriverResult.dimension) (input_dim_order cur prev metric)

/-- The source's default min_volume_share = 0.01. -/
def mvsDefault : ℚ := mkRat 1 100

/-- The source's default min_abs_contrib_share = 0.01. -/
def macsDefault : ℚ := mkRat 1 100

/-- The source's default eps = 1e-8 (modelled exactly). -/
def epsDefault : ℚ := mkRat 1 100000000

/-- Stub square root used to instantiate witnesses (the theorems about
detect_change_context hold for every sqrtQ). -/
def sqrtZero : ℚ → ℚ := fun _ => 0

/-- Concrete current period for claim C1: categories a and b of dimension
d, metric values 2 and 3. -/
def T1c : DF := ⟨["d", "metric_value"],
  [[Val.str "a", Val.num (mkRat 2 1)], [Val.str "b", Val.num (mkRat 3 1)]]⟩

/-- Concrete previous period for claim C1: metric values 1 and 3. -/
def T1p : DF := ⟨["d", "metric_value"],
  [[Val.str "a", Val.num (mkRat 1 1)], [Val.str "b", Val.num (mkRat 3 1)]]⟩

/-- The merged pre-filter table of dimension d on T1c/T1p: per category,
volume (sum) and mean in each period. -/
def MS1 : List MRow :=
  [⟨Val.str "a", mkRat 2 1, mkRat 2 1, mkRat 1 1, mkRat 1 1⟩,
   ⟨Val.str "b", mkRat 3 1, mkRat 3 1, mkRat 3 1, mkRat 3 1⟩]

/-- Concrete current period for claims C2 and C4: a numeric dimension d
with 11 distinct values 0..10 (21 distinct combined, so the dimension is
classified continuous and binned). -/
def T2c : DF := ⟨["d", "metric_value"],
  (List.range 11).map (fun i => [Val.num (mkRat (i : ℤ) 1), Val.num (mkRat 1 1)])⟩

/-- Concrete previous period for claims C2 and C4: values 11..20. -/
def T2p : DF := ⟨["d", "metric_value"],
  (List.range 10).map (fun i => [Val.num (mkRat ((i + 11 : ℕ) : ℤ) 1), Val.num (mkRat 1 1)])⟩

/-- Concrete periods for claim C3: category a holds 0.5% of the metric
total but 25% of the row-count share. -/
def T3c : DF := ⟨["d", "metric_value"],
  [[Val.str "a", Val.num (mkRat 1 2)], [Val.str "b", Val.num (mkRat 199 2)]]⟩

/-- Previous period for claim C3, identical to the current one. -/
def T3p : DF := ⟨["d", "metric_value"],
  [[Val.str "a", Val.num (mkRat 1 2)], [Val.str "b", Val.num (mkRat 199 2)]]⟩

/-- The merged pre-filter table of dimension d on T3c/T3p. -/
def MS3 : List MRow :=
  [⟨Val.str "a", mkRat 1 2, mkRat 1 2, mkRat 1 2, mkRat 1 2⟩,
   ⟨Val.str "b", mkRat 199 2, mkRat 199 2, mkRat 199 2, mkRat 199 2⟩]

/-- Concrete periods for claim C5: dimension d constant within each
period (one row each) but with a different value in each period. -/
def T5c : DF := ⟨["d", "metric_value"], [[Val.str "a", Val.num (mkRat 1 1)]]⟩

/-- Previous period for claim C5: the other category. -/
def T5p : DF := ⟨["d", "metric_value"], [[Val.str "b", Val.num (mkRat 1 1)]]⟩

/-- Concrete periods for claim C6: two categories whose volumes are far
below 1% of the row-count share, so the volume filter removes every
category. -/
def T6c : DF := ⟨["d", "metric_value"],
  [[Val.str "a", Val.num (mkRat 1 1000)], [Val.str "b", Val.num (mkRat 1 1000)]]⟩

/-- Previous period for claim C6, identical to the current one. -/
def T6p : DF := ⟨["d", "metric_value"],
  [[Val.str "a", Val.num (mkRat 1 1000)], [Val.str "b", Val.num (mkRat 1 1000)]]⟩

/-- The merged pre-filter table of dimension d on T6c/T6p. -/
def MS6 : List MRow :=
  [⟨Val.str "a", mkRat 1 1000, mkRat 1 1000, mkRat 1 1000, mkRat 1 1000⟩,
   ⟨Val.str "b", mkRat 1 1000, mkRat 1 1000, mkRat 1 1000, mkRat 1 1000⟩]

/-- Concrete table for claim C9, used as both periods: meta columns plus
two non-constant categorical dimensions a and b, whose contribution
deltas are all zero (so each dimension yields an empty DriverResult but
is still listed). -/
def T9 : DF := ⟨["date", "metric_value", "a", "b"],
  [[Val.num (mkRat 1 1), Val.num (mkRat 1 1), Val.str "x", Val.str "u"],
   [Val.num (mkRat 1 1), Val.num (mkRat 1 1), Val.str "y", Val.str "v"]]⟩

/-- The result list of calculate_drivers_effects on T9 with the explicit
dimension list ["a", "b"]. -/
def RS9ab : List DriverResult := [emptyDriverResult "a", emptyDriverResult "b"]

/-- Concrete full series for the claim C7 witness: two dated points. -/
def T7full : DF := ⟨["date", "metric_value"],
  [[Val.num (mkRat 1 1), Val.num (mkRat 5 1)], [Val.num (mkRat 2 1), Val.num (mkRat 6 1)]]⟩

/-- Concrete current period for the claim C7 witness. -/
def T7cur : DF := ⟨["date", "metric_value"], [[Val.num (mkRat 2 1), Val.num (mkRat 6 1)]]⟩

/-- Concrete previous period for the claim C7 witness. -/
def T7prev : DF := ⟨["date", "metric_value"], [[Val.num (mkRat 1 1), Val.num (mkRat 5 1)]]⟩
theorem den_cast_ne_zero (a : ℚ) : ((a.den : ℚ)) ≠ 0 :=
  Nat.cast_ne_zero.mpr a.den_ne_zero

theorem qadd_eq (a b : ℚ) : qadd a b = a + b := by
  rw [qadd, Rat.mkRat_eq_divInt, Rat.divInt_eq_div]
  conv_rhs => rw [← Rat.num_div_den a, ← Rat.num_div_den b]
  have ha := den_cast_ne_zero a
  have hb := den_cast_ne_zero b
  push_cast
  field_simp

theorem qsub_eq (a b : ℚ) : qsub a b = a - b := by
  rw [qsub, Rat.mkRat_eq_divInt, Rat.divInt_eq_div]
  conv_rhs => rw [← Rat.num_div_den a, ← Rat.num_div_den b]
  have ha := den_cast_ne_zero a
  have hb := den_cast_ne_zero b
  push_cast
  field_simp
  ring

theorem qmul_eq (a b : ℚ) : qmul a b = a * b := by
  rw [qmul, Rat.mkRat_eq_divInt, Rat.divInt_eq_div]
  conv_rhs => rw [← Rat.num_div_den a, ← Rat.num_div_den b]
  have ha := den_cast_ne_zero a
  have hb := den_cast_ne_zero b
  push_cast
  field_simp

theorem qabs_eq (a : ℚ) : qabs a = |a| := by
  rw [qabs]
  rcases lt_or_le a 0 with h | h
  · rw [if_pos h, abs_of_neg h]
  · rw [if_neg (not_lt.mpr h), abs_of_nonneg h]

theorem qdiv_eq (a b : ℚ) : qdiv a b = a / b := by
  have hstep : ((a.num * (b.den : ℤ) : ℤ) : ℚ) / (((a.den : ℤ) * b.num : ℤ) : ℚ) = a / b := by
    by_cases hb : b.num = 0
    · have hb0 : b = 0 := by
        rw [← Rat.num_div_den b, hb]
        simp
      rw [hb0]
      simp
    · have hbq : ((b.num : ℚ)) ≠ 0 := Int.cast_ne_zero.mpr hb
      have ha := den_cast_ne_zero a
      have hbd := den_cast_ne_zero b
      conv_rhs => rw [← Rat.num_div_den a, ← Rat.num_div_den b]
      push_cast
      field_simp
  rw [qdiv]
  rcases lt_or_le ((a.den : ℤ) * b.num) 0 with h | h
  · have h2 : ((((a.den : ℤ) * b.num).natAbs : ℤ)) = -((a.den : ℤ) * b.num) :=
      Int.ofNat_natAbs_of_nonpos (le_of_lt h)
    have hcast : (((((a.den : ℤ) * b.num).natAbs : ℤ)) : ℚ) = -((((a.den : ℤ) * b.num : ℤ)) : ℚ) := by
      rw [h2, Int.cast_neg]
    rw [if_pos h, Rat.mkRat_eq_divInt, Rat.divInt_eq_div, hcast, Int.cast_neg, neg_div_neg_eq,
      hstep]
  · have hcast : (((((a.den : ℤ) * b.num).toNat : ℤ)) : ℚ) = ((((a.den : ℤ) * b.num : ℤ)) : ℚ) := by
      rw [Int.toNat_of_nonneg h]
    rw [if_neg (not_lt.mpr h), Rat.mkRat_eq_divInt, Rat.divInt_eq_div, hcast, hstep]

theorem qsum_eq (l : List ℚ) : qsum l = l.sum := by
  induction l with
  | nil => rfl
  | cons x t ih =>
    rw [qsum, List.foldr, List.sum_cons, qadd_eq]
    rw [qsum] at ih
    rw [ih]


theorem nuniq_le_append_left (l1 l2 : List Val) : nuniqDropNa l1 ≤ nuniqDropNa (l1 ++ l2) := by
  unfold nuniqDropNa
  rw [List.filter_append, ← List.card_toFinset, ← List.card_toFinset, List.toFinset_append]
  exact Finset.card_le_card Finset.subset_union_left

theorem nuniq_le_append_right (l1 l2 : List Val) : nuniqDropNa l2 ≤ nuniqDropNa (l1 ++ l2) := by
  unfold nuniqDropNa
  rw [List.filter_append, ← List.card_toFinset, ← List.card_toFinset, List.toFinset_append]
  exact Finset.card_le_card Finset.subset_union_right

theorem str_ne_append_binned (dim : String) : dim ≠ dim ++ binnedSuffix := by
  intro h
  have hl := congrArg String.length h
  rw [String.length_append] at hl
  have h7 : binnedSuffix.length = 7 := rfl
  omega

theorem groupby_agg_keyName (df : DF) (k v : String) : (groupby_agg df k v).keyName = k := rfl

theorem merged_pre_filter_ne_error (cur prev : DF) (dim dimG metric : String)
    (h : dim ≠ dimG) :
    merged_pre_filter cur prev dim dimG metric = Except.error PyError.keyError := by
  have hcond : ¬(dim = (groupby_agg cur dimG metric).keyName
      ∧ dim = (groupby_agg prev dimG metric).keyName) := by
    intro hh
    exact h hh.1
  unfold merged_pre_filter merge_outer
  rw [if_neg hcond]

theorem process_dim_error_of_ne (cur prev : DF) (dim dimG metric : String)
    (tcv tpv tcc tpc tdelta mvs macs eps : ℚ) (h : dim ≠ dimG) :
    process_dim cur prev dim dimG metric tcv tpv tcc tpc tdelta mvs macs eps
      = Except.error PyError.keyError := by
  unfold process_dim
  rw [merged_pre_filter_ne_error cur prev dim dimG metric h]

theorem process_dim_ok_dimension (cur prev : DF) (dim dimG metric : String)
    (tcv tpv tcc tpc tdelta mvs macs eps : ℚ) (r : DriverResult)
    (h : process_dim cur prev dim dimG metric tcv tpv tcc tpc tdelta mvs macs eps
      = Except.ok r) : r.dimension = dim := by
  unfold process_dim at h
  cases hm : merged_pre_filter cur prev dim dimG metric with
  | error e =>
    rw [hm] at h
    exact absurd h (by simp)
  | ok merged =>
    rw [hm] at h
    simp only at h
    split at h
    · injection h with h2
      rw [← h2]
      rfl
    · split at h
      · injection h with h2
        rw [← h2]
        rfl
      · injection h with h2
        rw [← h2]

theorem drivers_loop_ok_dims (metric : String) (tcv tpv tcc tpc tdelta mvs macs eps : ℚ) :
    ∀ (dims : List String) (cur prev : DF) (rs : List DriverResult),
    (drivers_loop metric tcv tpv tcc tpc tdelta mvs macs eps dims cur prev).1 = Except.ok rs →
    rs.map DriverResult.dimension = dims.filter (fun d => !(dim_skipped cur prev d)) := by
  intro dims
  induction dims with
  | nil =>
    intro cur prev rs h
    simp only [drivers_loop] at h
    injection h with h2
    rw [← h2]
    rfl
  | cons dim rest ih =>
    intro cur prev rs h
    simp only [drivers_loop] at h
    by_cases hskip : dim_skipped cur prev dim = true
    · rw [if_pos hskip] at h
      rw [ih cur prev rs h, List.filter_cons]
      simp [hskip]
    · rw [if_neg hskip] at h
      by_cases hcont : is_continuous_series (cur.col dim ++ prev.col dim) 20 = true
      · rw [if_pos hcont] at h
        rw [process_dim_error_of_ne _ _ _ _ _ tcv tpv tcc tpc tdelta mvs macs eps
          (str_ne_append_binned dim)] at h
        simp at h
      · rw [if_neg hcont] at h
        cases hp : process_dim cur prev dim dim metric tcv tpv tcc tpc tdelta mvs macs eps with
        | error e =>
          rw [hp] at h
          simp at h
        | ok r =>
          rw [hp] at h
          cases hr : (drivers_loop metric tcv tpv tcc tpc tdelta mvs macs eps rest cur prev).1 with
          | error e =>
            rw [hr] at h
            simp at h
          | ok rs2 =>
            rw [hr] at h
            simp only [] at h
            injection h with h2
            rw [← h2, List.map_cons, ih cur prev rs2 hr, List.filter_cons]
            have hd : (!(dim_skipped cur prev dim)) = true := by
              simp [hskip]
            rw [hd]
            simp [process_dim_ok_dimension _ _ _ _ _ _ _ _ _ _ _ _ _ _ hp]

/-- Claim C1, amended: before the volume and contribution filters, the sum
of contrib_delta over the merged categories of a dimension equals the sum
of the per-category current contributions minus the sum of the
per-category previous contributions (each contribution being
volume x mean).  It does not in general equal the difference of the metric
column sums that the code uses as total_curr_contrib - total_prev_contrib,
because volume is itself the summed metric (see the counterexample). -/
theorem merged_conservation_per_category (cur prev : DF) (dim dimG metric : String)
    (ms : List MRow)
    (h : merged_pre_filter cur prev dim dimG metric = Except.ok ms) :
    qsum (ms.map contrib_delta)
      = qsub (qsum (ms.map contrib_curr)) (qsum (ms.map contrib_prev)) := by
  clear h
  rw [qsum_eq, qsub_eq, qsum_eq, qsum_eq]
  induction ms with
  | nil => simp
  | cons r t ih =>
    simp only [List.map_cons, List.sum_cons]
    rw [contrib_delta, qsub_eq, ih]
    ring

/-- Witness for claim C1 at a concrete dimension: the merge succeeds and
the per-category conservation holds on it. -/
theorem merged_conservation_per_category_witness :
    merged_pre_filter T1c T1p "d" "d" "metric_value" = Except.ok MS1
    ∧ qsum (MS1.map contrib_delta)
        = qsub (qsum (MS1.map contrib_curr)) (qsum (MS1.map contrib_prev)) :=
  ⟨by decide, merged_conservation_per_category T1c T1p "d" "d" "metric_value" MS1 (by decide)⟩

/-- Counterexample to claim C1 as stated: on the two-category dimension d
of T1c/T1p the pre-filter sum of contrib_delta is 3, while
total_curr_contrib - total_prev_contrib (the metric column sums the code
computes on lines 120-122) is 1: the conservation the spec states fails
because contrib = volume x mean with volume already the summed metric. -/
theorem conservation_metric_totals_counterexample :
    merged_pre_filter T1c T1p "d" "d" "metric_value" = Except.ok MS1
    ∧ qsum (MS1.map contrib_delta) = mkRat 3 1
    ∧ qsub (total_contrib T1c "metric_value") (total_contrib T1p "metric_value") = mkRat 1 1
    ∧ (mkRat 3 1 : ℚ) ≠ mkRat 1 1 := by decide

/-- Claim C3, amended: a category survives the volume filter of
calculate_drivers_effects iff its volume (the metric sum within the
category) divided by the row count of the period plus eps reaches
min_volume_share in at least one period.  The denominator is
len(current) respectively len(previous) (drivers.py lines 117-118), not
the metric column sum the spec names. -/
theorem volume_filter_row_count_denominator (current previous : DF) (eps mvs : ℚ)
    (ms : List MRow) (r : MRow) :
    r ∈ volume_filter (mkRat (current.rows.length : ℤ) 1)
        (mkRat (previous.rows.length : ℤ) 1) eps mvs ms
    ↔ r ∈ ms ∧
      (qdiv r.volume_curr (qadd (mkRat (current.rows.length : ℤ) 1) eps) ≥ mvs
       ∨ qdiv r.volume_prev (qadd (mkRat (previous.rows.length : ℤ) 1) eps) ≥ mvs) := by
  simp [volume_filter, List.mem_filter, volume_share_curr, volume_share_prev]

/-- Counterexample to claim C3 as stated: on T3c/T3p category a holds
0.5% of the metric-sum volume in both periods, so the spec's filter
(volume over total metric volume) drops it, yet the code keeps both
categories because it divides by the row count 2. -/
theorem volume_filter_spec_denominator_counterexample :
    merged_pre_filter T3c T3p "d" "d" "metric_value" = Except.ok MS3
    ∧ volume_filter (mkRat 2 1) (mkRat 2 1) epsDefault mvsDefault MS3 = MS3
    ∧ volume_filter_spec (total_contrib T3c "metric_value") (total_contrib T3p "metric_value")
        epsDefault mvsDefault MS3
      = [⟨Val.str "b", mkRat 199 2, mkRat 199 2, mkRat 199 2, mkRat 199 2⟩] := by decide

/-- Claim C5, amended: calculate_drivers_effects skips a dimension iff it
is missing from one of the frames or has at most one distinct value in
the current period AND at most one in the previous period.  The
combined-series check of line 136 is subsumed: combined constancy implies
per-period constancy.  In particular a dimension constant within each
period but different across periods IS skipped, although its combined
values have two distinct values. -/
theorem dim_skipped_iff_per_period_constant (cur prev : DF) (dim : String) :
    dim_skipped cur prev dim = true ↔
      (¬(dim ∈ cur.cols ∧ dim ∈ prev.cols)
       ∨ (nuniqDropNa (cur.col dim) ≤ 1 ∧ nuniqDropNa (prev.col dim) ≤ 1)) := by
  unfold dim_skipped
  simp only [Bool.or_eq_true, Bool.and_eq_true, Bool.not_eq_true', decide_eq_false_iff_not,
    decide_eq_true_eq]
  constructor
  · rintro (((h | h) | h) | h)
    · exact Or.inl (fun hc => h hc.1)
    · exact Or.inl (fun hc => h hc.2)
    · exact Or.inr h
    · exact Or.inr ⟨le_trans (nuniq_le_append_left _ _) h,
        le_trans (nuniq_le_append_right _ _) h⟩
  · rintro (h | h)
    · rcases not_and_or.mp h with h1 | h1
      · exact Or.inl (Or.inl (Or.inl h1))
      · exact Or.inl (Or.inl (Or.inr h1))
    · exact Or.inl (Or.inr h)

/-- Counterexample to claim C5 as stated: dimension d of T5c/T5p is
constant within each period but has 2 distinct combined values; the claim
says it is processed and yields a DriverResult, yet the code skips it
(line 130) and returns an empty result list. -/
theorem cross_period_constant_dimension_skipped :
    dim_skipped T5c T5p "d" = true
    ∧ nuniqDropNa (T5c.col "d" ++ T5p.col "d") = 2
    ∧ (calculate_drivers_effects T5c T5p "metric_value" ["d"]
        mvsDefault macsDefault epsDefault).1 = Except.ok [] := by decide

/-- Claim C8 (confirmed): with a positive eps the normalization
denominator is never zero, and contrib_share_of_change is contrib_delta
divided by that denominator; a dimension whose total contribution delta
is at most eps in absolute value falls back to
abs total_curr_contrib + abs total_prev_contrib + eps. -/
theorem norm_denom_nonzero (tdelta tcc tpc eps : ℚ) (heps : 0 < eps) :
    norm_denom tdelta tcc tpc eps ≠ 0
    ∧ ∀ r : MRow, contrib_share_of_change (norm_denom tdelta tcc tpc eps) r
        = qdiv (contrib_delta r) (norm_denom tdelta tcc tpc eps) := by
  constructor
  · unfold norm_denom
    by_cases h : qabs tdelta > eps
    · rw [if_pos h]
      intro h0
      rw [h0, qabs_eq] at h
      simp at h
      linarith
    · rw [if_neg h]
      rw [qadd_eq, qadd_eq, qabs_eq, qabs_eq]
      have h1 := abs_nonneg tcc
      have h2 := abs_nonneg tpc
      intro h0
      linarith [h0]
  · intro r
    rfl

/-- Witness for claim C8: the Scenario C setting, total contribution
delta 0 with totals 50 and 50 and the default eps, has a nonzero
denominator. -/
theorem norm_denom_nonzero_witness :
    (0 : ℚ) < epsDefault
    ∧ norm_denom 0 (mkRat 50 1) (mkRat 50 1) epsDefault ≠ 0 :=
  ⟨by decide, (norm_denom_nonzero 0 (mkRat 50 1) (mkRat 50 1) epsDefault (by decide)).1⟩

/-- Claim C10 (confirmed): for every invocation of
bin_continuous_dimension the edge set passed to pd.cut for the current
period equals the one passed for the previous period, and when binning
happens it is the single deduplicated (np.unique) quantile edge set
computed once on the combined data. -/
theorem bin_edges_consistent_across_periods (cur prev : DF) (dim : String)
    (n_bins min_unique : ℕ) :
    (bin_continuous_dimension cur prev dim n_bins min_unique).edges_used_curr
      = (bin_continuous_dimension cur prev dim n_bins min_unique).edges_used_prev
    ∧ ((bin_continuous_dimension cur prev dim n_bins min_unique).edges_used_curr = none
       ∨ (bin_continuous_dimension cur prev dim n_bins min_unique).edges_used_curr
          = some (uniqueSorted (quantile_points
              (((cur.col dim ++ prev.col dim).filter (fun v => !v.isNull)).map Val.toQ)
              (n_bins + 1)))) := by
  simp only [bin_continuous_dimension]
  split_ifs with h1 h2 h3
  · exact ⟨rfl, Or.inl rfl⟩
  · exact ⟨rfl, Or.inl rfl⟩
  · exact ⟨rfl, Or.inl rfl⟩
  · exact ⟨rfl, Or.inr rfl⟩

/-- Claim C2: evaluation of the code at the failing input.  On T2c/T2p
the dimension d is numeric with 21 distinct combined values, so it is
classified continuous and binned; the aggregates are then keyed by
d_binned while pd.merge is called with on="d" (drivers.py line 164),
which raises a KeyError instead of returning a DriverResult. -/
theorem continuous_dimension_merge_raises :
    (calculate_drivers_effects T2c T2p "metric_value" ["d"]
      mvsDefault macsDefault epsDefault).1 = Except.error PyError.keyError := by decide

/-- Claim C4: evaluation of the code at the failing input.  The binner
assigns the column d_binned to both caller frames in place (drivers.py
lines 28-29, 39-40, 45-50, 56-57): after the call both input tables carry
a column they did not have. -/
theorem binner_mutates_caller_frames :
    T2c.cols = ["d", "metric_value"]
    ∧ T2p.cols = ["d", "metric_value"]
    ∧ ((calculate_drivers_effects T2c T2p "metric_value" ["d"]
        mvsDefault macsDefault epsDefault).2.1).cols = ["d", "metric_value", "d_binned"]
    ∧ ((calculate_drivers_effects T2c T2p "metric_value" ["d"]
        mvsDefault macsDefault epsDefault).2.2).cols = ["d", "metric_value", "d_binned"] := by
  decide

/-- Claim C6, amended: when the merge succeeded and every category is
removed by the volume filter or by the contribution filter, process_dim
returns the dict that records the dimension name and empty drivers,
top_positive and top_negative lists, without a num_drivers key (the
source's empty-branch dicts, lines 184-189 and 205-211, omit it; the
downstream json builder defaults the missing key to len(drivers) = 0).
The dimension is never omitted from the returned list. -/
theorem process_dim_all_filtered_result (cur prev : DF) (dim dimG metric : String)
    (tcv tpv tcc tpc tdelta mvs macs eps : ℚ) (ms : List MRow)
    (hm : merged_pre_filter cur prev dim dimG metric = Except.ok ms)
    (he : contrib_filter (norm_denom tdelta tcc tpc eps) macs
        (volume_filter tcv tpv eps mvs ms) = []) :
    process_dim cur prev dim dimG metric tcv tpv tcc tpc tdelta mvs macs eps
      = Except.ok (emptyDriverResult dim) := by
  unfold process_dim
  rw [hm]
  simp only []
  by_cases hk : (volume_filter tcv tpv eps mvs ms).isEmpty = true
  · rw [if_pos hk]
  · rw [if_neg hk]
    have h2 : (contrib_filter (norm_denom tdelta tcc tpc eps) macs
        (volume_filter tcv tpv eps mvs ms)).isEmpty = true := by
      rw [he]
      rfl
    rw [if_pos h2]

/-- Witness for claim C6 at a concrete dimension where the volume filter
removes every category. -/
theorem process_dim_all_filtered_result_witness :
    merged_pre_filter T6c T6p "d" "d" "metric_value" = Except.ok MS6
    ∧ contrib_filter (norm_denom 0 (mkRat 1 500) (mkRat 1 500) epsDefault) macsDefault
        (volume_filter (mkRat 2 1) (mkRat 2 1) epsDefault mvsDefault MS6) = []
    ∧ process_dim T6c T6p "d" "d" "metric_value" (mkRat 2 1) (mkRat 2 1)
        (mkRat 1 500) (mkRat 1 500) 0 mvsDefault macsDefault epsDefault
      = Except.ok (emptyDriverResult "d") :=
  ⟨by decide, by decide,
   process_dim_all_filtered_result T6c T6p "d" "d" "metric_value" (mkRat 2 1) (mkRat 2 1)
     (mkRat 1 500) (mkRat 1 500) 0 mvsDefault macsDefault epsDefault MS6
     (by decide) (by decide)⟩

/-- Counterexample to claim C6 as stated: on T6c/T6p every category of d
is removed by the volume filter; the returned entry records the dimension
and empty lists but its num_drivers field is absent (modelled none), not
a field equal to 0 as the claim states. -/
theorem empty_drivers_num_drivers_absent :
    (calculate_drivers_effects T6c T6p "metric_value" ["d"]
      mvsDefault macsDefault epsDefault).1 = Except.ok [⟨"d", [], [], [], none⟩]
    ∧ (⟨"d", [], [], [], none⟩ : DriverResult).num_drivers ≠ some 0 := by decide

/-- Claim C7 (confirmed): detect_change_context fails with InvalidInput
iff the current or the previous period is empty; on failure it returns
that error and nothing else (the Except carries no partial result), and
for any non-empty pair it returns a complete ChangeContext.  Holds for
every square-root function; the hypotheses state the caller's interface
(a metric_value column and a named first time column exist). -/
theorem detect_change_context_invalid_iff (sqrtQ : ℚ → ℚ) (full current previous : DF)
    (hm : "metric_value" ∈ full.cols) (hmc : "metric_value" ∈ current.cols)
    (hmp : "metric_value" ∈ previous.cols) (hf : full.cols ≠ []) :
    ((detect_change_context sqrtQ full current previous = Except.error TrendError.invalidInput)
      ↔ (current.isEmpty = true ∨ previous.isEmpty = true))
    ∧ (¬(current.isEmpty = true ∨ previous.isEmpty = true)
       → ∃ ctx, detect_change_context sqrtQ full current previous = Except.ok ctx) := by
  by_cases hc : (current.isEmpty || previous.isEmpty) = true
  · have hval : detect_change_context sqrtQ full current previous
        = Except.error TrendError.invalidInput := by
      unfold detect_change_context
      rw [if_pos hc]
    exact ⟨⟨fun _ => (Bool.or_eq_true _ _).mp hc, fun _ => hval⟩,
      fun hne => absurd ((Bool.or_eq_true _ _).mp hc) hne⟩
  · have hval : ∃ ctx, detect_change_context sqrtQ full current previous = Except.ok ctx := by
      unfold detect_change_context
      rw [if_neg hc]
      exact ⟨_, rfl⟩
    obtain ⟨ctx, hctx⟩ := hval
    constructor
    · constructor
      · intro herr
        rw [hctx] at herr
        exact absurd herr (by simp)
      · intro hor
        exact absurd ((Bool.or_eq_true _ _).mpr hor) hc
    · intro h2
      exact ⟨ctx, hctx⟩

/-- Witness for claim C7 at concrete non-empty periods with the stub
square root (the theorem quantifies over every square-root function). -/
theorem detect_change_context_invalid_iff_witness :
    ("metric_value" ∈ T7full.cols ∧ "metric_value" ∈ T7cur.cols
      ∧ "metric_value" ∈ T7prev.cols ∧ T7full.cols ≠ [])
    ∧ (((detect_change_context sqrtZero T7full T7cur T7prev
          = Except.error TrendError.invalidInput)
        ↔ (T7cur.isEmpty = true ∨ T7prev.isEmpty = true))
       ∧ (¬(T7cur.isEmpty = true ∨ T7prev.isEmpty = true)
          → ∃ ctx, detect_change_context sqrtZero T7full T7cur T7prev = Except.ok ctx)) :=
  ⟨⟨by decide, by decide, by decide, by decide⟩,
   detect_change_context_invalid_iff sqrtZero T7full T7cur T7prev
     (by decide) (by decide) (by decide) (by decide)⟩

/-- Claim C9, amended: the DriverResult list of calculate_drivers_effects
follows the order of its dimensions argument (its dimension names are
exactly the non-skipped dimensions, in argument order).  With
dimensions=None that argument is the enumeration of the Python set
intersection of the column lists, so the output follows the set's
iteration order, not the input tables' column order; for a fixed
enumeration the function is pure, so identical calls yield identical,
identically ordered lists. -/
theorem drivers_results_follow_dimension_list (cur prev : DF) (metric : String)
    (dims : List String) (mvs macs eps : ℚ) (rs : List DriverResult)
    (h : (calculate_drivers_effects cur prev metric dims mvs macs eps).1 = Except.ok rs) :
    rs.map DriverResult.dimension = dims.filter (fun d => !(dim_skipped cur prev d)) := by
  unfold calculate_drivers_effects at h
  exact drivers_loop_ok_dims metric _ _ _ _ _ mvs macs eps dims cur prev rs h

/-- Witness for claim C9 at a concrete pair of frames and an explicit
dimension list. -/
theorem drivers_results_follow_dimension_list_witness :
    (calculate_drivers_effects T9 T9 "metric_value" ["a", "b"]
      mvsDefault macsDefault epsDefault).1 = Except.ok RS9ab
    ∧ RS9ab.map DriverResult.dimension
        = (["a", "b"].filter (fun d => !(dim_skipped T9 T9 d))) :=
  ⟨by decide, drivers_results_follow_dimension_list T9 T9 "metric_value" ["a", "b"]
    mvsDefault macsDefault epsDefault RS9ab (by decide)⟩

/-- Counterexample to claim C9 as stated: the enumeration
["b", "a", "date", "metric_value"] is a permutation of the common-column
set of T9 (Python guarantees no more than that for a set), and under it
the returned dimensions are ["b", "a"], which does not follow the input
column order ["a", "b"]. -/
theorem set_enumeration_order_counterexample : ¬ c9_ordering_claim := by
  intro h
  have h2 := h T9 T9 "metric_value" ["b", "a", "date", "metric_value"]
    mvsDefault macsDefault epsDefault [emptyDriverResult "b", emptyDriverResult "a"]
    (by decide) (by decide)
  exact absurd h2 (by decide)
